import Mathlib

/-!
Verification of the pypsrp core against its specification.

Shallow embedding of the relevant parts of the source:
  * src/psrp/dotnet/psrp_messages.py   (PSRP message type ids)
  * src/psrp/dotnet/primitive_types.py (PSChar, PSDuration, PSVersion)
  * src/psrp/io/wsman.py               (WSMan message encryption, connection setup)

Byte strings are modelled as `List Nat` (one entry per byte), Python strings as
Lean `String` / `List Char`, and Python exceptions as the `PyErr` error type of
an `Except` result.
-/

/-- Python exception kinds raised by the embedded code.  `UnicodeEncodeError`
and `UnicodeDecodeError` are subclasses of `ValueError` in Python;
`struct.error`, `OverflowError`, `NameError`, `httpx.HTTPStatusError` and the
plain `Exception` used by `_decrypt_wsman` are not. -/
inductive PyErr
  | valueError
  | unicodeEncodeError
  | unicodeDecodeError
  | structError
  | overflowError
  | indexError
  | nameError
  | httpStatusError
  | exceptionRaised
deriving DecidableEq, Repr

/-- Whether the exception is a `ValueError` in Python's exception hierarchy
(`UnicodeEncodeError`/`UnicodeDecodeError` derive from `ValueError`). -/
def PyErr.isValueError : PyErr → Bool
  | .valueError | .unicodeEncodeError | .unicodeDecodeError => true
  | _ => false

/-! ## C1: PSRP message type numbers (src/psrp/dotnet/psrp_messages.py) -/

/-- The PSRP message classes defined in src/psrp/dotnet/psrp_messages.py, in
source order. -/
inductive PSRPMessageClass
  | SessionCapability
  | InitRunspacePool
  | PublicKey
  | EncryptedSessionKey
  | PublicKeyRequest
  | SetMaxRunspaces
  | SetMinRunspaces
  | RunspaceAvailability
  | RunspacePoolState
  | CreatePipeline
  | GetAvailableRunspaces
  | UserEvent
  | ApplicationPrivateData
  | GetCommandMetadata
  | RunspacePoolHostCall
  | RunspacePoolHostResponse
  | PipelineInput
  | EndOfPipelineInput
  | PipelineOutput
  | ErrorRecord
  | PipelineState
  | DebugRecord
  | VerboseRecord
  | WarningRecord
  | ProgressRecord
  | InformationRecord
  | PipelineHostCall
  | PipelineHostResponse
  | ConnectRunspacePool
  | RunspacePoolInitData
  | ResetRunspaceState
deriving DecidableEq, Fintype, Repr

/-- The `psrp_message_type` each class's `PSObjectMetaPSRP` is constructed
with, transcribed from src/psrp/dotnet/psrp_messages.py. -/
def psrp_message_type : PSRPMessageClass → Nat
  | .SessionCapability => 0x00010002
  | .InitRunspacePool => 0x00010004
  | .PublicKey => 0x00010005
  | .EncryptedSessionKey => 0x00010006
  | .PublicKeyRequest => 0x00010007
  | .SetMaxRunspaces => 0x00021002
  | .SetMinRunspaces => 0x00021003
  | .RunspaceAvailability => 0x00021004
  | .RunspacePoolState => 0x00021005
  | .CreatePipeline => 0x00021006
  | .GetAvailableRunspaces => 0x00021007
  | .UserEvent => 0x00021008
  | .ApplicationPrivateData => 0x00021009
  | .GetCommandMetadata => 0x0002100A
  | .RunspacePoolHostCall => 0x00021100
  | .RunspacePoolHostResponse => 0x00021101
  | .PipelineInput => 0x00041002
  | .EndOfPipelineInput => 0x00041003
  | .PipelineOutput => 0x00041004
  | .ErrorRecord => 0x00041005
  | .PipelineState => 0x00041006
  | .DebugRecord => 0x00041007
  | .VerboseRecord => 0x00041008
  | .WarningRecord => 0x00041009
  | .ProgressRecord => 0x00041010
  | .InformationRecord => 0x00041011
  | .PipelineHostCall => 0x00041100
  | .PipelineHostResponse => 0x00041101
  | .ConnectRunspacePool => 0x00010008
  | .RunspacePoolInitData => 0x0002100B
  | .ResetRunspaceState => 0x0002100C

/-- The ids the spec lists for the [MS-PSRP §2.2.2] message names, matched to
the message classes by name (SESSION_CAPABILITY 0x00010002 and so on). -/
def msPsrpSectionId : PSRPMessageClass → Nat
  | .SessionCapability => 0x00010002
  | .InitRunspacePool => 0x00010004
  | .PublicKey => 0x00010005
  | .EncryptedSessionKey => 0x00010006
  | .PublicKeyRequest => 0x00010007
  | .ConnectRunspacePool => 0x00010008
  | .SetMaxRunspaces => 0x00021002
  | .SetMinRunspaces => 0x00021003
  | .RunspaceAvailability => 0x00021004
  | .RunspacePoolState => 0x00021005
  | .CreatePipeline => 0x00021006
  | .GetAvailableRunspaces => 0x00021007
  | .UserEvent => 0x00021008
  | .ApplicationPrivateData => 0x00021009
  | .GetCommandMetadata => 0x0002100A
  | .RunspacePoolInitData => 0x0002100B
  | .ResetRunspaceState => 0x0002100C
  | .RunspacePoolHostCall => 0x00021100
  | .RunspacePoolHostResponse => 0x00021101
  | .PipelineInput => 0x00041002
  | .EndOfPipelineInput => 0x00041003
  | .PipelineOutput => 0x00041004
  | .ErrorRecord => 0x00041005
  | .PipelineState => 0x00041006
  | .DebugRecord => 0x00041007
  | .VerboseRecord => 0x00041008
  | .WarningRecord => 0x00041009
  | .ProgressRecord => 0x00041010
  | .InformationRecord => 0x00041011
  | .PipelineHostCall => 0x00041100
  | .PipelineHostResponse => 0x00041101

/-! ## C10: get_tls_server_end_point_hash (src/psrp/io/wsman.py:224-243) -/

/-- Shallow embedding of `get_tls_server_end_point_hash`.  The cryptography
library's digest computation is abstracted as the function parameter `digest`
(algorithm name, message ↦ digest bytes); the certificate's parsed signature
hash algorithm is `none` when `cert.signature_hash_algorithm` raises
`UnsupportedAlgorithm` or returns `None`. -/
def get_tls_server_end_point_hash (digest : String → List Nat → List Nat)
    (signature_hash_algorithm : Option String) (certificate_der : List Nat) : List Nat :=
  match signature_hash_algorithm with
  | none => digest "sha256" certificate_der
  | some name =>
    if name = "md5" || name = "sha1" then digest "sha256" certificate_der
    else digest name certificate_der

/-- The hash-algorithm selection as claim C10 words it: the certificate's own
signature hash algorithm, except that an unknown algorithm, MD5 or SHA-1 is
replaced by SHA-256. -/
def c10ClaimSelectedAlgorithm : Option String → String
  | none => "sha256"
  | some name => if name = "md5" || name = "sha1" then "sha256" else name

/-! ## C5 / C6: AsyncWSManConnection (src/psrp/io/wsman.py:538-654) -/

/-- Characters urllib.parse treats as valid inside a URL scheme. -/
def isSchemeChar (c : Char) : Bool :=
  c.isAlpha || ('0' ≤ c && c ≤ '9') || c = '+' || c = '-' || c = '.'

/-- Model of `urllib.parse.urlparse(url).scheme`: the part before the first
':' (lower-cased) when it is a well-formed scheme (non-empty, starts with a
letter, scheme characters only, and a ':' actually occurs); otherwise `""`. -/
def urlparse_scheme (url : String) : String :=
  let pre := url.data.takeWhile (fun c => c ≠ ':')
  if pre.length < url.data.length &&
      (match pre with | [] => false | c :: _ => c.isAlpha) &&
      pre.all isSchemeChar then
    ⟨pre.map Char.toLower⟩
  else ""

/-- The auth values `AsyncWSManConnection.__init__` accepts. -/
def supported_auths : List String :=
  ["basic", "certificate", "negotiate", "kerberos", "ntlm", "credssp"]

/-- Shallow embedding of the fragment of `AsyncWSManConnection.__init__`
(src/psrp/io/wsman.py:568-627) that validates `encryption` and `auth` and
computes the `self.encrypt` flag.  The returned value is `self.encrypt`; the
errors model the two `ValueError`s raised, in source order. -/
def AsyncWSManConnection_init_encrypt (connection_uri encryption auth : String) :
    Except String Bool :=
  if ¬(encryption = "auto" ∨ encryption = "always" ∨ encryption = "never") then
    .error "The encryption value must be auto, always, or never"
  else
    let encrypt : Bool :=
      if encryption = "auto" then urlparse_scheme connection_uri == "http"
      else encryption = "always"
    if ¬(auth ∈ supported_auths) then
      .error "The specified auth is not supported"
    else
      .ok encrypt

/-- The `auto` rule as claim C6 states it: encrypt iff the URL scheme is http
and the auth method is neither basic nor certificate. -/
def c6ClaimAutoRule (connection_uri auth : String) : Bool :=
  (urlparse_scheme connection_uri == "http") && !(auth = "basic" || auth = "certificate")

/-- An HTTP request as issued through the httpx client: method, URL and body
bytes. -/
structure HttpRequest where
  method : String
  url : String
  body : List Nat
deriving DecidableEq, Repr

/-- The sequence of HTTP requests `AsyncWSManConnection.send`
(src/psrp/io/wsman.py:634-648) issues for a payload `data`: the payload is
never used and two GET requests are made to http://httpbin.org/status/401. -/
def AsyncWSManConnection_send_requests (data : List Nat) : List HttpRequest :=
  [⟨"GET", "http://httpbin.org/status/401", []⟩,
   ⟨"GET", "http://httpbin.org/status/401", []⟩]

/-- The result of `AsyncWSManConnection.send` as a function of the status code
of the second response: on a non-200 status `raise_for_status` is called,
which raises HTTPStatusError for 4xx/5xx codes; every other path reaches
`return content` where the local `content` was never assigned (both
assignments are commented out), raising `NameError`.  httpbin.org/status/401
answers 401, so the HTTPStatusError path is the one actually taken. -/
def AsyncWSManConnection_send_result (data : List Nat) (status : Nat) :
    Except PyErr (List Nat) :=
  if status ≠ 200 ∧ 400 ≤ status then .error .httpStatusError else .error .nameError

/-! ## Byte-string and decimal-numeral helpers -/

/-- UTF-8/ASCII bytes of a string (every string the WSMan code interpolates is
ASCII, so one byte per character). -/
def strBytes (s : String) : List Nat := s.data.map Char.toNat

/-- The character for a decimal digit value. -/
def digitChar (d : Nat) : Char := Char.ofNat (48 + d)

/-- Decimal digits of `n`, most significant first, by repeated division
(`fuel ≥ n` makes the recursion total; digits come out least significant
first and are reversed by `natToDec`). -/
def natToDecAux : Nat → Nat → List Char
  | 0, _ => []
  | _ + 1, 0 => []
  | fuel + 1, n + 1 => digitChar ((n + 1) % 10) :: natToDecAux fuel ((n + 1) / 10)

/-- Model of Python `str(n)` for a non-negative integer. -/
def natToDec (n : Nat) : List Char := if n = 0 then ['0'] else (natToDecAux n n).reverse

/-- Model of Python `str(n)` as a Lean `String`. -/
def natToDecStr (n : Nat) : String := ⟨natToDec n⟩

/-- ASCII whitespace bytes (`\s` of the `re` patterns, `bytes.strip`,
`int()`). -/
def isWsByte (b : Nat) : Bool :=
  b = 32 || b = 9 || b = 10 || b = 13 || b = 11 || b = 12

/-- `bytes.strip()`: drop ASCII whitespace from both ends. -/
def stripBytes (bs : List Nat) : List Nat :=
  ((bs.dropWhile isWsByte).reverse.dropWhile isWsByte).reverse

/-- Leftmost position at which `needle` occurs in `hay`. -/
def firstMatchPos (needle hay : List Nat) : Option Nat :=
  (List.range (hay.length + 1)).find? (fun i => needle.isPrefixOf (hay.drop i))

/-- `bs.split(sep)[1]`: the text between the first and the second occurrence
of `sep` (everything after the first when there is no second); IndexError when
`sep` does not occur at all. -/
def pySplitIndex1 (sep bs : List Nat) : Except PyErr (List Nat) :=
  match firstMatchPos sep bs with
  | none => .error .indexError
  | some p =>
    let rest := bs.drop (p + sep.length)
    match firstMatchPos sep rest with
    | none => .ok rest
    | some q => .ok (rest.take q)

/-- Python `int(bs)`: optional surrounding ASCII whitespace, an optional sign,
then one or more decimal digits; anything else raises ValueError. -/
def pyIntOfBytes (bs : List Nat) : Except PyErr Int :=
  let t := stripBytes bs
  let sd : Int × List Nat :=
    match t with
    | 45 :: rest => (-1, rest)
    | 43 :: rest => (1, rest)
    | _ => (1, t)
  if sd.2 ≠ [] ∧ sd.2.all (fun b => 48 ≤ b && b ≤ 57) then
    .ok (sd.1 * (Nat.ofDigits 10 (sd.2.map (fun b => b - 48)).reverse : Nat))
  else .error .valueError

/-- Python index arithmetic for slices: negative indices count from the end,
and indices are clamped to the list. -/
def pyIdx (len : Nat) (i : Int) : Nat :=
  if i < 0 then ((len : Int) + i).toNat else min i.toNat len

/-- Python `l[a:b]`. -/
def pySlice (l : List Nat) (a b : Int) : List Nat :=
  (l.take (pyIdx l.length b)).drop (pyIdx l.length a)

/-- Python `l[a:]`. -/
def pySliceFrom (l : List Nat) (a : Int) : List Nat :=
  l.drop (pyIdx l.length a)

/-- `struct.pack("<i", n)` for the non-negative header lengths the code packs:
4 bytes, little endian. -/
def packI32LE (n : Nat) : List Nat :=
  [n % 256, n / 256 % 256, n / 65536 % 256, n / 16777216 % 256]

/-- `struct.unpack("<i", bs)[0]`: struct.error unless exactly 4 bytes;
little-endian two's-complement. -/
def unpackI32LE (bs : List Nat) : Except PyErr Int :=
  match bs with
  | [b0, b1, b2, b3] =>
    let u := b0 + 256 * b1 + 65536 * b2 + 16777216 * b3
    .ok (if 2147483648 ≤ u then (u : Int) - 4294967296 else (u : Int))
  | _ => .error .structError

/-- Whether `needle` occurs as a contiguous substring of `hay`
(Python's `needle in hay`). -/
def containsSub (hay needle : List Char) : Bool :=
  (List.range (hay.length + 1)).any fun i => needle.isPrefixOf (hay.drop i)

/-! ## WSMan message encryption (src/psrp/io/wsman.py:674-745) -/

/-- The `wrap_winrm` result of a pyspnego security context: signature/header
bytes, encrypted data, and the padding length the wrapping added. -/
structure WinRMWrapResult where
  header : List Nat
  data : List Nat
  padding_length : Nat

/-- A pyspnego security context, abstracted to the two operations
`_encrypt_wsman`/`_decrypt_wsman` use. -/
structure SpnegoContext where
  wrap_winrm : List Nat → WinRMWrapResult
  unwrap_winrm : List Nat → List Nat → List Nat

/-- `[data[i:i+m] for i in range(0, len(data), m)]` for a positive step `m`:
`range(0, n, m)` is `[0, m, 2m, ...]` with `⌈n/m⌉` elements.  (`m = 0` never
reaches this function: `range()` raises ValueError first in
`_encrypt_wsman`.) -/
def chunkList (l : List Nat) (m : Nat) : List (List Nat) :=
  (List.range ((l.length + m - 1) / m)).map (fun i => (l.drop (i * m)).take m)

/-- The per-chunk segment length bound of `_encrypt_wsman`: 16 KiB chunks for
CredSSP, otherwise the whole body at once. -/
def encrypt_max_size (data : List Nat) (encryption_type : String) : Nat :=
  if containsSub encryption_type.data "CredSSP".data then 16384 else data.length

/-- The MIME text `_encrypt_wsman` builds in front of one chunk's wrapped
payload (the `content` variable, a `"\r\n".join` of six lines). -/
def segTextOfChunk (content_type encryption_type : String) (chunk_length : Nat) : String :=
  String.intercalate "\r\n"
    ["--Encrypted Boundary",
     "\tContent-Type: " ++ encryption_type,
     "\tOriginalContent: type=" ++ content_type ++ ";Length=" ++ natToDecStr chunk_length,
     "--Encrypted Boundary",
     "\tContent-Type: application/octet-stream",
     ""]

/-- One encrypted segment: the body of `_encrypt_wsman`'s per-chunk loop
(src/psrp/io/wsman.py:725-739).  The `Length` field carries
`len(chunk) + padding_length`; the wrapped payload is the 4-byte little-endian
header length, the header bytes, then the ciphertext. -/
def _encrypt_wsman_segment (chunk : List Nat) (content_type encryption_type : String)
    (context : SpnegoContext) : List Nat :=
  let enc_details := context.wrap_winrm chunk
  let wrapped_data := packI32LE enc_details.header.length ++ enc_details.header ++ enc_details.data
  let chunk_length := chunk.length + enc_details.padding_length
  strBytes (segTextOfChunk content_type encryption_type chunk_length) ++ wrapped_data

/-- Shallow embedding of `_encrypt_wsman` (src/psrp/io/wsman.py:712-745).
Returns the multipart body and the new Content-Type.  The error is the
ValueError Python's `range()` raises when the step `max_size` is 0, i.e. an
empty body with a non-CredSSP encryption type. -/
def _encrypt_wsman (data : List Nat) (content_type encryption_type : String)
    (context : SpnegoContext) : Except PyErr (List Nat × String) :=
  let boundary := "Encrypted Boundary"
  let max_size := encrypt_max_size data encryption_type
  if max_size = 0 then .error .valueError
  else
    let chunks := chunkList data max_size
    let encrypted_chunks := chunks.map
      (fun chunk => _encrypt_wsman_segment chunk content_type encryption_type context)
    let content_sub_type :=
      if encrypted_chunks.length = 1 then "multipart/encrypted"
      else "multipart/x-multi-encrypted"
    let new_content_type :=
      content_sub_type ++ ";protocol=\"" ++ encryption_type ++ "\";boundary=\"" ++ boundary ++ "\""
    .ok (encrypted_chunks.flatten ++ strBytes ("--" ++ boundary ++ "--\r\n"), new_content_type)

/-- The characters of the boundary regex's delimiter class.  The source
writes the pattern as adjacent single-quoted literals, so the `''` pair
closes and reopens the string: the concatenated pattern is
`boundary=[|"](.*)[|"]` and the class holds only the pipe and the double
quote. -/
def isQuoteClassChar (c : Char) : Bool := c = '|' || c = '"'

/-- Position of the last quote-class character of `l`, if any. -/
def lastQuotePos (l : List Char) : Option Nat :=
  (List.range l.length).reverse.find?
    (fun i => match l.get? i with | some c => isQuoteClassChar c | none => false)

/-- A match of `boundary=['|"](.*)['|"]` starting exactly here: after the
literal `boundary=` and an opening quote-class character, the greedy `.*`
(which cannot cross a newline) runs group(1) to the last quote-class character
of the rest of the line. -/
def boundaryMatchAt (l : List Char) : Option (List Char) :=
  if ("boundary=".data).isPrefixOf l then
    match l.drop 9 with
    | c :: rest =>
      if isQuoteClassChar c then
        let line := rest.takeWhile (fun ch => ch ≠ '\n')
        match lastQuotePos line with
        | some j => some (line.take j)
        | none => none
      else none
    | [] => none
  else none

/-- `re.search('boundary=[\'|"](.*)[\'|"]', content_type).group(1)`: the
leftmost match wins; when there is none, `.group` on `None` raises
(AttributeError). -/
def extractBoundary (content_type : List Char) : Except PyErr (List Char) :=
  match (List.range (content_type.length + 1)).findSome?
      (fun i => boundaryMatchAt (content_type.drop i)) with
  | some b => .ok b
  | none => .error .exceptionRaised

/-- The bytes `--`. -/
def dashdash : List Nat := [45, 45]

/-- The bytes `\r\n`. -/
def crlfBytes : List Nat := [13, 10]

/-- If `l` begins with a match of the segment-delimiter pattern
`--\s*<bnd>\r\n` (greedy `\s*`, longest whitespace run first), the remainder
after the match. -/
def matchDashBoundary (bnd l : List Nat) : Option (List Nat) :=
  if dashdash.isPrefixOf l then
    let after := l.drop 2
    let wlen := (after.takeWhile isWsByte).length
    (List.range (wlen + 1)).reverse.findSome? (fun k =>
      let r := after.drop k
      if (bnd ++ crlfBytes).isPrefixOf r then some (r.drop (bnd.length + 2)) else none)
  else none

/-- `re.split` of the pattern `--\s*<bnd>\r\n` over a byte string: scan left
to right, cutting at each non-overlapping match.  Fuel-driven; callers pass
`length + 1`, which bounds the number of scan steps. -/
def splitDashBoundary (bnd : List Nat) : Nat → List Nat → List Nat → List (List Nat)
  | 0, cur, rest => [cur.reverse ++ rest]
  | fuel + 1, cur, rest =>
    match matchDashBoundary bnd rest with
    | some r => cur.reverse :: splitDashBoundary bnd fuel [] r
    | none =>
      match rest with
      | [] => [cur.reverse]
      | c :: tl => splitDashBoundary bnd fuel (c :: cur) tl

/-- `re.compile((r"--\s*%s\r\n" % re.escape(boundary)).encode()).split(data)`. -/
def pySplitPattern (bnd l : List Nat) : List (List Nat) :=
  splitDashBoundary bnd (l.length + 1) [] l

/-- `re.sub((r'--\s*%s--\r\n$' % boundary).encode(), b'', payload)`: removes
the end-of-message terminator when the payload ends with it (the `$` anchor
means only a match ending the payload is removed; the payloads here always end
in `\r\n`, so the just-before-a-final-newline case of `$` never differs). -/
def removeEndTerminator (bnd payload : List Nat) : List Nat :=
  match (List.range (payload.length + 1)).findSome? (fun i =>
    let tl := payload.drop i
    if dashdash.isPrefixOf tl then
      let after := tl.drop 2
      let wlen := (after.takeWhile isWsByte).length
      (List.range (wlen + 1)).reverse.findSome? (fun k =>
        if after.drop k = bnd ++ dashdash ++ crlfBytes then some i else none)
    else none) with
  | some i => payload.take i
  | none => payload

/-- `bytes.replace(pat, b"")`: drop every non-overlapping occurrence of `pat`,
scanning left to right.  Fuel-driven; callers pass `length + 1`. -/
def replaceAllBytes (pat : List Nat) : Nat → List Nat → List Nat
  | 0, l => l
  | fuel + 1, l =>
    if pat ≠ [] ∧ pat.isPrefixOf l then replaceAllBytes pat fuel (l.drop pat.length)
    else
      match l with
      | [] => []
      | c :: tl => c :: replaceAllBytes pat fuel tl

/-- `l.replace(pat, b"")`. -/
def pyReplace (l pat : List Nat) : List Nat := replaceAllBytes pat (l.length + 1) l

/-- The body of `_decrypt_wsman`'s loop (src/psrp/io/wsman.py:686-707) over
the segment (header, payload) pairs.  `data` is the **whole** multipart body:
the source computes `b_enc_data = data[4 + header_length:]`, slicing the outer
`data` rather than the segment's `wrapped_data`.  A lone trailing part models
the IndexError of `parts[i + 1]`. -/
def _decrypt_wsman_pairs (bnd : List Nat) (data : List Nat) (context : SpnegoContext) :
    List (List Nat) → Except PyErr (List (List Nat))
  | [] => .ok []
  | [_] => .error .indexError
  | part0 :: part1 :: rest => do
    let header := stripBytes part0
    let lenField ← pySplitIndex1 (strBytes "Length=") header
    let expected_length ← pyIntOfBytes lenField
    let payload := removeEndTerminator bnd part1
    let wrapped_data := pyReplace payload (strBytes "\tContent-Type: application/octet-stream\r\n")
    let header_length ← unpackI32LE (pySlice wrapped_data 0 4)
    let b_header := pySlice wrapped_data 4 (4 + header_length)
    let b_enc_data := pySliceFrom data (4 + header_length)
    let unwrapped_data := context.unwrap_winrm b_header b_enc_data
    let actual_length : Int := unwrapped_data.length
    if actual_length ≠ expected_length then .error .exceptionRaised
    else do
      let restContent ← _decrypt_wsman_pairs bnd data context rest
      .ok (unwrapped_data :: restContent)

/-- Shallow embedding of `_decrypt_wsman` (src/psrp/io/wsman.py:674-709). -/
def _decrypt_wsman (data : List Nat) (content_type : String) (context : SpnegoContext) :
    Except PyErr (List Nat) := do
  let bndChars ← extractBoundary content_type.data
  let bnd := bndChars.map Char.toNat
  let parts := (pySplitPattern bnd data).filter (fun p => !p.isEmpty)
  let content ← _decrypt_wsman_pairs bnd data context parts
  .ok content.flatten

/-- The `Length=` values of the segment headers of a multipart encrypted body,
read exactly the way `_decrypt_wsman` reads them (strip, `split(b"Length=")[1]`,
`int`). -/
def segmentLengthFields_pairs : List (List Nat) → Except PyErr (List Int)
  | [] => .ok []
  | [_] => .error .indexError
  | part0 :: _ :: rest => do
    let lenField ← pySplitIndex1 (strBytes "Length=") (stripBytes part0)
    let n ← pyIntOfBytes lenField
    let ns ← segmentLengthFields_pairs rest
    .ok (n :: ns)

/-- The `Length=` values of each segment of a multipart encrypted body. -/
def segmentLengthFields (bnd data : List Nat) : Except PyErr (List Int) :=
  segmentLengthFields_pairs ((pySplitPattern bnd data).filter (fun p => !p.isEmpty))

/-- A wrap/unwrap test double on which `unwrap_winrm` exactly inverts
`wrap_winrm`: a fixed 4-byte header, ciphertext equal to the plaintext, and no
padding. -/
def idCtx : SpnegoContext :=
  { wrap_winrm := fun d => ⟨strBytes "HDR!", d, 0⟩
    unwrap_winrm := fun _ d => d }

/-- Like `idCtx` but the wrapping reports 3 bytes of padding (as a block
cipher such as the ones behind CredSSP would). -/
def padCtx : SpnegoContext :=
  { wrap_winrm := fun d => ⟨strBytes "HDR!", d, 3⟩
    unwrap_winrm := fun _ d => d }

/-! ## C7: PSChar (src/psrp/dotnet/primitive_types.py:145-201) -/

/-- UTF-16-LE encoding of one Unicode code point, as Python's strict
`str.encode('utf-16-le')` treats it: a lone surrogate raises
UnicodeEncodeError, a BMP code point yields one 16-bit unit (2 bytes), a
supplementary one a surrogate pair (4 bytes). -/
def utf16leEncodeCp (cp : Nat) : Except PyErr (List Nat) :=
  if 0xD800 ≤ cp ∧ cp ≤ 0xDFFF then .error .unicodeEncodeError
  else if cp < 0x10000 then .ok [cp % 256, cp / 256]
  else
    .ok [(0xD800 + (cp - 0x10000) / 0x400) % 256, (0xD800 + (cp - 0x10000) / 0x400) / 256,
         (0xDC00 + (cp - 0x10000) % 0x400) % 256, (0xDC00 + (cp - 0x10000) % 0x400) / 256]

/-- `s.encode('utf-16-le')` over the code points of a Python string. -/
def utf16leEncode : List Nat → Except PyErr (List Nat)
  | [] => .ok []
  | cp :: rest =>
    match utf16leEncodeCp cp, utf16leEncode rest with
    | .ok b, .ok bs => .ok (b ++ bs)
    | .error e, _ => .error e
    | .ok _, .error e => .error e

/-- One step of a strict UTF-8 decoder: the first code point and the rest of
the bytes.  Rejects truncated and invalid sequences, overlong encodings,
surrogates and code points beyond U+10FFFF, as Python's strict
`bytes.decode('utf-8')` does. -/
def utf8DecodeStep : List Nat → Except PyErr (Nat × List Nat)
  | [] => .error .unicodeDecodeError
  | b0 :: rest =>
    if b0 < 0x80 then .ok (b0, rest)
    else if b0 < 0xC2 then .error .unicodeDecodeError
    else if b0 < 0xE0 then
      match rest with
      | b1 :: rest1 =>
        if 0x80 ≤ b1 ∧ b1 < 0xC0 then .ok ((b0 - 0xC0) * 64 + (b1 - 0x80), rest1)
        else .error .unicodeDecodeError
      | _ => .error .unicodeDecodeError
    else if b0 < 0xF0 then
      match rest with
      | b1 :: b2 :: rest2 =>
        if 0x80 ≤ b1 ∧ b1 < 0xC0 ∧ 0x80 ≤ b2 ∧ b2 < 0xC0 then
          if (b0 - 0xE0) * 4096 + (b1 - 0x80) * 64 + (b2 - 0x80) < 0x800 ∨
              (0xD800 ≤ (b0 - 0xE0) * 4096 + (b1 - 0x80) * 64 + (b2 - 0x80) ∧
                (b0 - 0xE0) * 4096 + (b1 - 0x80) * 64 + (b2 - 0x80) ≤ 0xDFFF) then
            .error .unicodeDecodeError
          else .ok ((b0 - 0xE0) * 4096 + (b1 - 0x80) * 64 + (b2 - 0x80), rest2)
        else .error .unicodeDecodeError
      | _ => .error .unicodeDecodeError
    else if b0 < 0xF5 then
      match rest with
      | b1 :: b2 :: b3 :: rest3 =>
        if 0x80 ≤ b1 ∧ b1 < 0xC0 ∧ 0x80 ≤ b2 ∧ b2 < 0xC0 ∧ 0x80 ≤ b3 ∧ b3 < 0xC0 then
          if (b0 - 0xF0) * 262144 + (b1 - 0x80) * 4096 + (b2 - 0x80) * 64 + (b3 - 0x80) < 0x10000 ∨
              0x10FFFF < (b0 - 0xF0) * 262144 + (b1 - 0x80) * 4096 + (b2 - 0x80) * 64 + (b3 - 0x80) then
            .error .unicodeDecodeError
          else .ok ((b0 - 0xF0) * 262144 + (b1 - 0x80) * 4096 + (b2 - 0x80) * 64 + (b3 - 0x80), rest3)
        else .error .unicodeDecodeError
      | _ => .error .unicodeDecodeError
    else .error .unicodeDecodeError

/-- Fuel-driven strict UTF-8 decode loop (each step consumes at least one
byte, so fuel = number of bytes suffices). -/
def utf8DecodeAux : Nat → List Nat → Except PyErr (List Nat)
  | _, [] => .ok []
  | 0, _ :: _ => .error .unicodeDecodeError
  | fuel + 1, b :: rest =>
    match utf8DecodeStep (b :: rest) with
    | .error e => .error e
    | .ok (cp, rest2) =>
      match utf8DecodeAux fuel rest2 with
      | .error e => .error e
      | .ok cps => .ok (cp :: cps)

/-- Python's strict `bytes.decode('utf-8')`, yielding code points. -/
def utf8Decode (bs : List Nat) : Except PyErr (List Nat) := utf8DecodeAux bs.length bs

/-- `struct.unpack("<H", b)[0]`: exactly two bytes or struct.error. -/
def structUnpackH : List Nat → Except PyErr Nat
  | [b0, b1] => .ok (b0 + 256 * b1)
  | _ => .error .structError

/-- The argument shapes claim C7 covers for `PSChar(...)`: an int, a unicode
string (a list of code points) or a byte string. -/
inductive PSCharArg
  | int (i : Int)
  | str (cps : List Nat)
  | bytes (bs : List Nat)

/-- The string path of `PSChar.__new__`: encode to UTF-16-LE, reject more
than 2 bytes with ValueError, `struct.unpack("<H", ...)` (struct.error on the
empty encoding), then the 0..65535 range check. -/
def PSChar_ofStr (cps : List Nat) : Except PyErr Int :=
  match utf16leEncode cps with
  | .error e => .error e
  | .ok b =>
    if 2 < b.length then .error .valueError
    else
      match structUnpackH b with
      | .error e => .error e
      | .ok v =>
        if (v : Int) < 0 ∨ 65535 < (v : Int) then .error .valueError else .ok (v : Int)

/-- Shallow embedding of `PSChar.__new__`
(src/psrp/dotnet/primitive_types.py:176-194): a byte string is decoded as
UTF-8 first, a string goes through UTF-16-LE, an int is range-checked to
0..65535. -/
def PSChar_new : PSCharArg → Except PyErr Int
  | .int i => if i < 0 ∨ 65535 < i then .error .valueError else .ok i
  | .str cps => PSChar_ofStr cps
  | .bytes bs =>
    match utf8Decode bs with
    | .error e => .error e
    | .ok cps => PSChar_ofStr cps

/-! ## C9: PSDuration (src/psrp/dotnet/primitive_types.py:68-93, 332-449) -/

/-- A normalized `datetime.timedelta`: `0 ≤ seconds < 86400`,
`0 ≤ microseconds < 1000000`, days carries the sign. -/
structure Timedelta where
  days : Int
  seconds : Nat
  microseconds : Nat
deriving DecidableEq, Repr

/-- `datetime.timedelta(microseconds=us)`: floor-normalize into days, seconds
and microseconds and raise OverflowError when the day count exceeds
±999999999, exactly as the Python class does.  (Python's floor division and
modulo coincide with `Int.ediv`/`Int.emod` here because every divisor is
positive.) -/
def timedelta_from_us (us : Int) : Except PyErr Timedelta :=
  let days := us.ediv 86400000000
  let rem := us.emod 86400000000
  if days < -999999999 ∨ 999999999 < days then .error .overflowError
  else .ok ⟨days, rem.toNat / 1000000, rem.toNat % 1000000⟩

/-- A `PSDuration`: the normalized base timedelta plus the extra
`nanoseconds` instance attribute `__new__` sets. -/
structure PSDuration where
  td : Timedelta
  nanoseconds : Int
deriving DecidableEq, Repr

/-- `_timedelta_total_nanoseconds` (src/psrp/dotnet/primitive_types.py:68-93)
on a plain timedelta, whose `nanoseconds` attribute defaults to 0. -/
def timedelta_total_nanoseconds_td (td : Timedelta) : Int :=
  0 + td.microseconds * 1000 + td.seconds * 1000000000 + td.days * 86400000000000

/-- `_timedelta_total_nanoseconds` on a `PSDuration` (the `nanoseconds`
attribute is present). -/
def timedelta_total_nanoseconds (d : PSDuration) : Int :=
  d.nanoseconds + d.td.microseconds * 1000 + d.td.seconds * 1000000000 +
    d.td.days * 86400000000000

/-- `PSDuration.__new__` (src/psrp/dotnet/primitive_types.py:363-382): add
the `nanoseconds` keyword to the total nanoseconds of the base timedelta,
carry the whole microseconds into a fresh normalized timedelta and keep the
remainder modulo 1000 as the `nanoseconds` attribute. -/
def PSDuration_new (base : Timedelta) (nanoseconds : Int) : Except PyErr PSDuration :=
  let n := nanoseconds + timedelta_total_nanoseconds_td base
  let microseconds := n.ediv 1000
  let nanos := n.emod 1000
  match timedelta_from_us microseconds with
  | .error e => .error e
  | .ok td => .ok ⟨td, nanos⟩

/-- `PSDuration(nanoseconds=n)`: the base timedelta is `timedelta()` = 0. -/
def PSDuration_ofNanos (n : Int) : Except PyErr PSDuration :=
  PSDuration_new ⟨0, 0, 0⟩ n

/-- `PSDuration.__add__` (src/psrp/dotnet/primitive_types.py:415-421). -/
def PSDuration_add (a b : PSDuration) : Except PyErr PSDuration :=
  PSDuration_ofNanos (timedelta_total_nanoseconds a + timedelta_total_nanoseconds b)

/-- `PSDuration.__sub__` (src/psrp/dotnet/primitive_types.py:423-429). -/
def PSDuration_sub (a b : PSDuration) : Except PyErr PSDuration :=
  PSDuration_ofNanos (timedelta_total_nanoseconds a - timedelta_total_nanoseconds b)

/-- `PSDuration.__neg__` (src/psrp/dotnet/primitive_types.py:438-439). -/
def PSDuration_neg (a : PSDuration) : Except PyErr PSDuration :=
  PSDuration_ofNanos (-(timedelta_total_nanoseconds a))

/-- `PSDuration.__eq__` for duration operands
(src/psrp/dotnet/primitive_types.py:444-449). -/
def PSDuration_eq (a b : PSDuration) : Bool :=
  decide (timedelta_total_nanoseconds a = timedelta_total_nanoseconds b)

/-! ## C8: PSVersion (src/psrp/dotnet/primitive_types.py:33-45, 918-1011) -/

/-- C1: every PSRP message class's `psrp_message_type` equals the
[MS-PSRP §2.2.2] id the spec lists for that message name. -/
theorem c1_message_type_ids :
    ∀ c : PSRPMessageClass, psrp_message_type c = msPsrpSectionId c := by
  decide

/-- C10: the channel-binding hash is the digest of the DER bytes computed with
the certificate's own signature hash algorithm, except that an unknown
algorithm, MD5 or SHA-1 is replaced by SHA-256. -/
theorem c10_tls_server_end_point_hash :
    ∀ (digest : String → List Nat → List Nat) (alg : Option String) (der : List Nat),
      get_tls_server_end_point_hash digest alg der =
        digest (c10ClaimSelectedAlgorithm alg) der := by
  intro digest alg der
  cases alg with
  | none => rfl
  | some name =>
    simp only [get_tls_server_end_point_hash, c10ClaimSelectedAlgorithm]
    split <;> rfl

/-- C6 counterexample: with `encryption='auto'`, an http URL and `auth='basic'`
the constructor enables encryption (`self.encrypt = True`), while the claim's
rule (scheme is http **and** auth is not basic/certificate) demands it be
disabled. -/
theorem c6_counterexample :
    AsyncWSManConnection_init_encrypt "http://server:5985/wsman" "auto" "basic" =
      Except.ok true ∧
    c6ClaimAutoRule "http://server:5985/wsman" "basic" = false := by
  exact ⟨rfl, by decide⟩

/-- C6 (amended): with `encryption='auto'` the `encrypt` flag is set iff the
URL scheme is http, regardless of the auth method; `'always'` always enables
and `'never'` never enables it; any other encryption value makes construction
fail with a ValueError. -/
theorem c6_amended_encrypt_flag (uri auth enc : String)
    (hauth : auth ∈ supported_auths) :
    AsyncWSManConnection_init_encrypt uri "auto" auth =
      .ok (urlparse_scheme uri == "http") ∧
    AsyncWSManConnection_init_encrypt uri "always" auth = .ok true ∧
    AsyncWSManConnection_init_encrypt uri "never" auth = .ok false ∧
    (¬(enc = "auto" ∨ enc = "always" ∨ enc = "never") →
      AsyncWSManConnection_init_encrypt uri enc auth =
        .error "The encryption value must be auto, always, or never") := by
  refine ⟨?_, ?_, ?_, ?_⟩
  · simp [AsyncWSManConnection_init_encrypt, hauth]
  · simp [AsyncWSManConnection_init_encrypt, hauth]
  · simp [AsyncWSManConnection_init_encrypt, hauth]
  · intro h
    simp [AsyncWSManConnection_init_encrypt, h]

/-- C6 witness: instantiates the amended theorem at a concrete connection. -/
theorem c6_amended_witness :
    "ntlm" ∈ supported_auths ∧
    AsyncWSManConnection_init_encrypt "https://server:5986/wsman" "auto" "ntlm" =
      .ok (urlparse_scheme "https://server:5986/wsman" == "http") := by
  exact ⟨by decide,
    (c6_amended_encrypt_flag "https://server:5986/wsman" "ntlm" "x" (by decide)).1⟩

/-- C5: `AsyncWSManConnection.send` never issues the single HTTP POST of the
SOAP envelope the claim requires — it issues two GETs to httpbin.org and never
returns the response body (every outcome is an exception). -/
theorem c5_send_code_bug :
    (∀ (data : List Nat) (endpoint : String),
      AsyncWSManConnection_send_requests data ≠ [⟨"POST", endpoint, data⟩]) ∧
    (∀ (data : List Nat) (status : Nat) (r : List Nat),
      AsyncWSManConnection_send_result data status ≠ .ok r) := by
  constructor
  · intro data endpoint h
    simpa [AsyncWSManConnection_send_requests] using congrArg List.length h
  · intro data status r
    unfold AsyncWSManConnection_send_result
    split <;> simp

/-- `chunkList` on the empty list is empty. -/
theorem chunkList_nil (m : Nat) : chunkList [] m = [] := by
  unfold chunkList
  rcases Nat.eq_zero_or_pos m with hm | hm
  · simp [hm]
  · have h0 : (0 + m - 1) / m = 0 := Nat.div_eq_of_lt (by omega)
    simp only [List.length_nil, h0, List.range_zero, List.map_nil]

/-- The recursion equation of `chunkList`: a non-empty list splits into its
first `m` elements and the chunks of the rest. -/
theorem chunkList_cons (m : Nat) (hm : 0 < m) (l : List Nat) (hl : l ≠ []) :
    chunkList l m = l.take m :: chunkList (l.drop m) m := by
  have hn : 0 < l.length := List.length_pos.mpr hl
  have hcount : (l.length + m - 1) / m = (l.length - 1) / m + 1 := by
    have h1 : l.length + m - 1 = (l.length - 1) + m := by omega
    rw [h1, Nat.add_div_right _ hm]
  have hcount2 : ((l.drop m).length + m - 1) / m = (l.length - 1) / m := by
    simp only [List.length_drop]
    rcases le_or_lt m l.length with hle | hlt
    · have h1 : l.length - m + m - 1 = l.length - 1 := by omega
      rw [h1]
    · have h1 : l.length - m = 0 := by omega
      rw [h1]
      have h2 : (0 + m - 1) / m = 0 := Nat.div_eq_of_lt (by omega)
      have h3 : (l.length - 1) / m = 0 := Nat.div_eq_of_lt (by omega)
      rw [h2, h3]
  unfold chunkList
  rw [hcount, hcount2, List.range_succ_eq_map, List.map_cons, List.map_map]
  refine congrArg₂ _ (by simp) ?_
  refine List.map_congr_left ?_
  intro i _
  simp only [Function.comp_apply, List.drop_drop]
  have hs : i.succ * m = i * m + m := Nat.succ_mul i m
  rw [hs, Nat.add_comm (i * m) m]

/-- Concatenating the chunks gives back the data (positive chunk size). -/
theorem chunkList_flatten (m : Nat) (hm : 0 < m) (l : List Nat) :
    (chunkList l m).flatten = l := by
  by_cases hl : l = []
  · simp [hl, chunkList_nil]
  · have hlen : (l.drop m).length < l.length := by
      have hpos : 0 < l.length := List.length_pos.mpr hl
      simp only [List.length_drop]
      omega
    rw [chunkList_cons m hm l hl, List.flatten_cons, chunkList_flatten m hm (l.drop m)]
    exact List.take_append_drop m l
termination_by l.length
decreasing_by
  exact hlen

/-- Every chunk has length at most the chunk size. -/
theorem chunkList_length_le (m : Nat) (l : List Nat) :
    ∀ c ∈ chunkList l m, c.length ≤ m := by
  intro c hc
  unfold chunkList at hc
  rcases List.mem_map.mp hc with ⟨i, _, hi⟩
  rw [← hi]
  exact List.length_take_le m _

/-- A non-empty list chunked at its own length is a single chunk. -/
theorem chunkList_self (l : List Nat) (hl : l ≠ []) : chunkList l l.length = [l] := by
  have hpos : 0 < l.length := List.length_pos.mpr hl
  rw [chunkList_cons l.length hpos l hl]
  simp [chunkList_nil]

/-- Data longer than the chunk size yields at least two chunks. -/
theorem chunkList_two_le (m : Nat) (l : List Nat) (hm : 0 < m) (hlen : m < l.length) :
    2 ≤ (chunkList l m).length := by
  have hl : l ≠ [] := by
    intro he
    rw [he] at hlen
    simp at hlen
  have hne : l.drop m ≠ [] := by
    intro he
    have hc := congrArg List.length he
    simp only [List.length_drop, List.length_nil] at hc
    omega
  rw [chunkList_cons m hm l hl, chunkList_cons m hm (l.drop m) hne]
  simp

set_option maxRecDepth 20000 in
/-- C2: decryption does not invert encryption.  With a context on which
`unwrap_winrm` exactly inverts `wrap_winrm` (no padding), decrypting the
encrypted 9-byte body `b"plaintext"` raises the length-mismatch Exception
instead of returning the body: `_decrypt_wsman` slices the ciphertext out of
the whole multipart body (`data[4 + header_length:]`) instead of the segment's
`wrapped_data`. -/
theorem c2_decrypt_not_inverse :
    (_encrypt_wsman (strBytes "plaintext") "application/soap+xml;charset=UTF-8"
        "application/HTTP-SPNEGO-session-encrypted" idCtx).bind
      (fun out => _decrypt_wsman out.1 out.2 idCtx) = .error .exceptionRaised ∧
    Except.error PyErr.exceptionRaised ≠ .ok (strBytes "plaintext") := by
  refine ⟨by rfl, ?_⟩
  intro h
  exact Except.noConfusion h

set_option maxRecDepth 20000 in
/-- C3 counterexample: encrypting the 5-byte body [1,2,3,4,5] under a context
that reports 3 bytes of padding produces a single segment whose
`OriginalContent` header carries `Length=8`, not the plaintext length 5. -/
theorem c3_counterexample :
    (_encrypt_wsman [1, 2, 3, 4, 5] "application/soap+xml;charset=UTF-8"
        "application/HTTP-SPNEGO-session-encrypted" padCtx).map
      (fun out => segmentLengthFields (strBytes "Encrypted Boundary") out.1) =
      .ok (.ok [8]) ∧
    (8 : Int) ≠ ((5 : Nat) : Int) := by
  exact ⟨by rfl, by decide⟩

/-- C3 (amended): each segment's OriginalContent header carries
`Length = len(chunk) + padding_length`, the plaintext chunk length **plus**
the padding the wrapping context reports, followed by the wrapped payload. -/
theorem c3_amended_segment_length (chunk : List Nat) (ct et : String)
    (ctx : SpnegoContext) :
    _encrypt_wsman_segment chunk ct et ctx =
      strBytes (segTextOfChunk ct et
          (chunk.length + (ctx.wrap_winrm chunk).padding_length)) ++
        (packI32LE (ctx.wrap_winrm chunk).header.length ++
          (ctx.wrap_winrm chunk).header ++ (ctx.wrap_winrm chunk).data) := rfl

set_option maxRecDepth 20000 in
/-- C4 counterexample: `_encrypt_wsman` is not defined for every body — the
empty body with a non-CredSSP encryption type makes `range()` raise ValueError
(step `max_size` is 0), so no multipart container or content type is
produced. -/
theorem c4_counterexample :
    _encrypt_wsman [] "application/soap+xml;charset=UTF-8"
        "application/HTTP-SPNEGO-session-encrypted" idCtx = .error .valueError := by
  rfl

/-- C4 (amended): for every **non-empty** body: the boundary is the literal
`Encrypted Boundary`; the content type is multipart/encrypted for a single
segment and multipart/x-multi-encrypted otherwise; each segment is the MIME
text followed by the 4-byte little-endian header length, the header bytes and
the ciphertext; a non-CredSSP encryption type wraps the whole body as one
chunk, while CredSSP cuts it into chunks of at most 16384 bytes (more than one
for a body longer than 16 KiB). -/
theorem c4_amended_encrypt_structure (data : List Nat) (ct et : String)
    (ctx : SpnegoContext) (hdata : data ≠ []) :
    _encrypt_wsman data ct et ctx =
      .ok (((chunkList data (encrypt_max_size data et)).map
              (fun c => _encrypt_wsman_segment c ct et ctx)).flatten ++
            strBytes "--Encrypted Boundary--\r\n",
          (if (chunkList data (encrypt_max_size data et)).length = 1
            then "multipart/encrypted" else "multipart/x-multi-encrypted") ++
            ";protocol=\"" ++ et ++ "\";boundary=\"" ++ "Encrypted Boundary" ++ "\"") ∧
    (containsSub et.data "CredSSP".data = false →
        chunkList data (encrypt_max_size data et) = [data]) ∧
    (containsSub et.data "CredSSP".data = true →
        (∀ c ∈ chunkList data (encrypt_max_size data et), c.length ≤ 16384) ∧
        (chunkList data (encrypt_max_size data et)).flatten = data ∧
        (16384 < data.length →
          2 ≤ (chunkList data (encrypt_max_size data et)).length)) := by
  have hms : encrypt_max_size data et ≠ 0 := by
    unfold encrypt_max_size
    split
    · decide
    · exact fun h => hdata (List.eq_nil_of_length_eq_zero h)
  refine ⟨?_, ?_, ?_⟩
  · simp only [_encrypt_wsman, if_neg hms, List.length_map]
    rfl
  · intro hcs
    have h1 : encrypt_max_size data et = data.length := by
      simp [encrypt_max_size, hcs]
    rw [h1]
    exact chunkList_self data hdata
  · intro hcs
    have h1 : encrypt_max_size data et = 16384 := by
      simp [encrypt_max_size, hcs]
    rw [h1]
    exact ⟨chunkList_length_le 16384 data,
      chunkList_flatten 16384 (by norm_num) data,
      fun hlen => chunkList_two_le 16384 data (by norm_num) hlen⟩

/-- C4 witness: the amended theorem instantiated at the one-byte body `[1]`
with SPNEGO encryption. -/
theorem c4_amended_witness :
    ([1] : List Nat) ≠ [] ∧
    _encrypt_wsman [1] "application/soap+xml;charset=UTF-8"
        "application/HTTP-SPNEGO-session-encrypted" idCtx =
      .ok (((chunkList [1]
              (encrypt_max_size [1] "application/HTTP-SPNEGO-session-encrypted")).map
              (fun c => _encrypt_wsman_segment c "application/soap+xml;charset=UTF-8"
                "application/HTTP-SPNEGO-session-encrypted" idCtx)).flatten ++
            strBytes "--Encrypted Boundary--\r\n",
          (if (chunkList [1]
                (encrypt_max_size [1] "application/HTTP-SPNEGO-session-encrypted")).length = 1
            then "multipart/encrypted" else "multipart/x-multi-encrypted") ++
            ";protocol=\"" ++ "application/HTTP-SPNEGO-session-encrypted" ++
            "\";boundary=\"" ++ "Encrypted Boundary" ++ "\"") :=
  ⟨by decide,
    (c4_amended_encrypt_structure [1] "application/soap+xml;charset=UTF-8"
      "application/HTTP-SPNEGO-session-encrypted" idCtx (by decide)).1⟩

/-- `utf16leEncodeCp` only fails with UnicodeEncodeError. -/
theorem utf16leEncodeCp_err (cp : Nat) (e : PyErr)
    (h : utf16leEncodeCp cp = .error e) : e = .unicodeEncodeError := by
  unfold utf16leEncodeCp at h
  split at h
  · injection h with h1
    exact h1.symm
  · split at h <;> exact absurd h (by simp)

/-- `utf16leEncodeCp` succeeds with 2 or 4 bytes. -/
theorem utf16leEncodeCp_ok_length (cp : Nat) (b : List Nat)
    (h : utf16leEncodeCp cp = .ok b) : 2 ≤ b.length := by
  unfold utf16leEncodeCp at h
  split at h
  · exact absurd h (by simp)
  · split at h
    · injection h with h1
      subst h1
      simp
    · injection h with h1
      subst h1
      simp

/-- `utf16leEncode` only fails with UnicodeEncodeError. -/
theorem utf16leEncode_err (l : List Nat) (e : PyErr)
    (h : utf16leEncode l = .error e) : e = .unicodeEncodeError := by
  induction l with
  | nil => exact absurd h (by simp [utf16leEncode])
  | cons c rest ih =>
    simp only [utf16leEncode] at h
    split at h
    · exact absurd h (by simp)
    · rename_i e1 heq
      injection h with h1
      subst h1
      exact utf16leEncodeCp_err _ _ heq
    · rename_i heq2
      injection h with h1
      subst h1
      exact ih heq2

/-- A successful UTF-16-LE encoding has at least 2 bytes per code point. -/
theorem utf16leEncode_ok_length (l : List Nat) (b : List Nat)
    (h : utf16leEncode l = .ok b) : 2 * l.length ≤ b.length := by
  induction l generalizing b with
  | nil => simp
  | cons c rest ih =>
    simp only [utf16leEncode] at h
    cases henc : utf16leEncodeCp c with
    | error e => rw [henc] at h; exact absurd h (by simp)
    | ok b1 =>
      rw [henc] at h
      cases hrest : utf16leEncode rest with
      | error e => rw [hrest] at h; exact absurd h (by simp)
      | ok bs =>
        rw [hrest] at h
        injection h with h1
        have h2 : 2 ≤ b1.length := utf16leEncodeCp_ok_length c b1 henc
        have h3 := ih bs hrest
        subst h1
        simp only [List.length_append, List.length_cons]
        omega

/-- `PSChar_ofStr` on a single BMP non-surrogate code point returns it. -/
theorem pschar_ofStr_single (c : Nat) (hc : c < 65536)
    (hs : ¬(0xD800 ≤ c ∧ c ≤ 0xDFFF)) : PSChar_ofStr [c] = .ok (c : Int) := by
  have henc : utf16leEncode [c] = .ok [c % 256, c / 256] := by
    simp only [utf16leEncode, utf16leEncodeCp, if_neg hs, if_pos hc]
    rfl
  simp only [PSChar_ofStr, henc]
  have hlen : ¬(2 < ([c % 256, c / 256] : List Nat).length) := by simp
  rw [if_neg hlen]
  simp only [structUnpackH, Nat.mod_add_div]
  have hrange : ¬((c : Int) < 0 ∨ 65535 < (c : Int)) := by
    push_neg
    constructor
    · exact Int.ofNat_nonneg c
    · omega
  rw [if_neg hrange]

/-- `PSChar_ofStr` on a single lone surrogate raises UnicodeEncodeError. -/
theorem pschar_ofStr_surrogate (c : Nat) (hs : 0xD800 ≤ c ∧ c ≤ 0xDFFF) :
    PSChar_ofStr [c] = .error .unicodeEncodeError := by
  simp only [PSChar_ofStr, utf16leEncode, utf16leEncodeCp, if_pos hs]

/-- `PSChar_ofStr` on a single supplementary code point raises ValueError
(the surrogate pair is 4 bytes). -/
theorem pschar_ofStr_large (c : Nat) (hc : 65536 ≤ c) :
    PSChar_ofStr [c] = .error .valueError := by
  have hs : ¬(0xD800 ≤ c ∧ c ≤ 0xDFFF) := by omega
  have hlt : ¬(c < 0x10000) := by omega
  simp only [PSChar_ofStr, utf16leEncode, utf16leEncodeCp, if_neg hs, if_neg hlt]
  rfl

/-- `PSChar_ofStr` of the empty string raises struct.error. -/
theorem pschar_ofStr_nil : PSChar_ofStr [] = .error .structError := rfl

/-- `PSChar_ofStr` never succeeds on two or more code points. -/
theorem pschar_ofStr_multi (c1 c2 : Nat) (rest : List Nat) (v : Int) :
    PSChar_ofStr (c1 :: c2 :: rest) ≠ .ok v := by
  intro h
  unfold PSChar_ofStr at h
  split at h
  · exact absurd h (by simp)
  · rename_i b henc
    have hlen : 2 < b.length := by
      have := utf16leEncode_ok_length _ b henc
      simp only [List.length_cons] at this
      omega
    rw [if_pos hlen] at h
    exact absurd h (by simp)

/-- The error of `PSChar_ofStr` on two or more code points is a ValueError. -/
theorem pschar_ofStr_multi_err (c1 c2 : Nat) (rest : List Nat) (e : PyErr)
    (h : PSChar_ofStr (c1 :: c2 :: rest) = .error e) : e.isValueError = true := by
  unfold PSChar_ofStr at h
  split at h
  · rename_i e1 henc
    injection h with h1
    subst h1
    rw [utf16leEncode_err _ _ henc]
    rfl
  · rename_i b henc
    have hlen : 2 < b.length := by
      have := utf16leEncode_ok_length _ b henc
      simp only [List.length_cons] at this
      omega
    rw [if_pos hlen] at h
    injection h with h1
    subst h1
    rfl

/-- `utf8DecodeStep` either succeeds or fails with UnicodeDecodeError. -/
theorem utf8DecodeStep_cases (l : List Nat) :
    (∃ r, utf8DecodeStep l = .ok r) ∨ utf8DecodeStep l = .error .unicodeDecodeError := by
  unfold utf8DecodeStep
  cases l with
  | nil =>
    right
    rfl
  | cons b0 rest =>
    repeat' split
    all_goals first | (left; exact ⟨_, rfl⟩) | (right; rfl)

/-- `utf8DecodeStep` only fails with UnicodeDecodeError. -/
theorem utf8DecodeStep_err (l : List Nat) (e : PyErr)
    (h : utf8DecodeStep l = .error e) : e = .unicodeDecodeError := by
  rcases utf8DecodeStep_cases l with ⟨r, hr⟩ | hr
  · rw [hr] at h
    exact absurd h (by simp)
  · rw [hr] at h
    injection h with h1
    exact h1.symm

/-- `utf8DecodeAux` only fails with UnicodeDecodeError. -/
theorem utf8DecodeAux_err (fuel : Nat) (l : List Nat) (e : PyErr)
    (h : utf8DecodeAux fuel l = .error e) : e = .unicodeDecodeError := by
  induction fuel generalizing l with
  | zero =>
    cases l with
    | nil =>
      have hz : utf8DecodeAux 0 ([] : List Nat) = .ok [] := rfl
      rw [hz] at h
      exact absurd h (by simp)
    | cons b rest =>
      have hz : utf8DecodeAux 0 (b :: rest) = .error .unicodeDecodeError := rfl
      rw [hz] at h
      injection h with h1
      exact h1.symm
  | succ fuel ih =>
    cases l with
    | nil =>
      have hz : utf8DecodeAux (fuel + 1) ([] : List Nat) = .ok [] := rfl
      rw [hz] at h
      exact absurd h (by simp)
    | cons b rest =>
      simp only [utf8DecodeAux] at h
      split at h
      · rename_i e1 heq
        injection h with h1
        subst h1
        exact utf8DecodeStep_err _ _ heq
      · split at h
        · rename_i heq2
          injection h with h1
          subst h1
          exact ih _ heq2
        · exact absurd h (by simp)

/-- `utf8Decode` only fails with UnicodeDecodeError. -/
theorem utf8Decode_err (bs : List Nat) (e : PyErr)
    (h : utf8Decode bs = .error e) : e = .unicodeDecodeError :=
  utf8DecodeAux_err _ _ _ h

/-- C7 counterexample: `PSChar('')` — the empty string encodes to zero UTF-16
code units and `struct.unpack("<H", b'')` raises struct.error, which is not a
ValueError, while the claim requires every failing argument in those shapes to
raise ValueError. -/
theorem c7_counterexample :
    PSChar_new (.str []) = .error .structError ∧
    PyErr.structError.isValueError = false :=
  ⟨rfl, rfl⟩

/-- C7 (amended): `PSChar` of an int succeeds iff the value is in 0..65535
(ValueError otherwise); of a (byte or unicode) string it succeeds iff the
string is exactly one BMP non-surrogate code point, i.e. encodes to exactly
one UTF-16 code unit, and then equals that code unit; every other argument in
those shapes raises a ValueError — except the empty string (or a byte string
decoding to it), which raises struct.error.  Byte strings are decoded as
UTF-8 first, a failure being a UnicodeDecodeError (a ValueError). -/
theorem c7_amended_pschar (i : Int) (cps : List Nat) (bs : List Nat) :
    (0 ≤ i ∧ i ≤ 65535 → PSChar_new (.int i) = .ok i) ∧
    (¬(0 ≤ i ∧ i ≤ 65535) → PSChar_new (.int i) = .error .valueError) ∧
    ((∃ v, PSChar_new (.str cps) = .ok v) ↔
      ∃ c, cps = [c] ∧ c < 65536 ∧ ¬(0xD800 ≤ c ∧ c ≤ 0xDFFF)) ∧
    (∀ c, cps = [c] → c < 65536 → ¬(0xD800 ≤ c ∧ c ≤ 0xDFFF) →
      PSChar_new (.str cps) = .ok (c : Int)) ∧
    (∀ e, PSChar_new (.str cps) = .error e →
      e.isValueError = true ∨ (cps = [] ∧ e = .structError)) ∧
    (∀ cps2, utf8Decode bs = .ok cps2 → PSChar_new (.bytes bs) = PSChar_new (.str cps2)) ∧
    (∀ e, utf8Decode bs = .error e →
      PSChar_new (.bytes bs) = .error e ∧ e.isValueError = true) := by
  refine ⟨?_, ?_, ?_, ?_, ?_, ?_, ?_⟩
  · intro hr
    simp only [PSChar_new]
    rw [if_neg (by omega)]
  · intro hr
    simp only [PSChar_new]
    rw [if_pos (by omega)]
  · constructor
    · rintro ⟨v, hv⟩
      simp only [PSChar_new] at hv
      match cps with
      | [] =>
        rw [pschar_ofStr_nil] at hv
        exact absurd hv (by simp)
      | [c] =>
        by_cases hs : 0xD800 ≤ c ∧ c ≤ 0xDFFF
        · rw [pschar_ofStr_surrogate c hs] at hv
          exact absurd hv (by simp)
        · by_cases hc : c < 65536
          · exact ⟨c, rfl, hc, hs⟩
          · rw [pschar_ofStr_large c (by omega)] at hv
            exact absurd hv (by simp)
      | c1 :: c2 :: rest =>
        exact absurd hv (pschar_ofStr_multi c1 c2 rest v)
    · rintro ⟨c, hceq, hc, hs⟩
      subst hceq
      exact ⟨(c : Int), pschar_ofStr_single c hc hs⟩
  · intro c hceq hc hs
    subst hceq
    exact pschar_ofStr_single c hc hs
  · intro e he
    simp only [PSChar_new] at he
    match cps with
    | [] =>
      rw [pschar_ofStr_nil] at he
      injection he with h1
      exact Or.inr ⟨rfl, h1.symm⟩
    | [c] =>
      left
      by_cases hs : 0xD800 ≤ c ∧ c ≤ 0xDFFF
      · rw [pschar_ofStr_surrogate c hs] at he
        injection he with h1
        rw [← h1]
        rfl
      · by_cases hc : c < 65536
        · rw [pschar_ofStr_single c hc hs] at he
          exact absurd he (by simp)
        · rw [pschar_ofStr_large c (by omega)] at he
          injection he with h1
          rw [← h1]
          rfl
    | c1 :: c2 :: rest =>
      exact Or.inl (pschar_ofStr_multi_err c1 c2 rest e he)
  · intro cps2 hdec
    simp only [PSChar_new, hdec]
  · intro e hdec
    refine ⟨by simp only [PSChar_new, hdec], ?_⟩
    rw [utf8Decode_err bs e hdec]
    rfl

/-- C7 witness: the amended theorem instantiated at `PSChar(65)`,
`PSChar('a')` and `PSChar(b'a')`. -/
theorem c7_amended_witness :
    PSChar_new (.int 65) = .ok 65 ∧
    PSChar_new (.str [97]) = .ok 97 ∧
    utf8Decode [97] = .ok [97] ∧
    PSChar_new (.bytes [97]) = PSChar_new (.str [97]) := by
  refine ⟨?_, ?_, by rfl, ?_⟩
  · exact (c7_amended_pschar 65 [97] [97]).1 (by decide)
  · exact (c7_amended_pschar 65 [97] [97]).2.2.2.1 97 rfl (by decide) (by decide)
  · exact (c7_amended_pschar 65 [97] [97]).2.2.2.2.2.1 [97] (by rfl)

/-- A successfully built timedelta carries exactly its microsecond total. -/
theorem timedelta_from_us_total (us : Int) (td : Timedelta)
    (h : timedelta_from_us us = .ok td) :
    timedelta_total_nanoseconds_td td = us * 1000 := by
  simp only [timedelta_from_us] at h
  split at h
  · exact absurd h (by simp)
  · injection h with h1
    subst h1
    unfold timedelta_total_nanoseconds_td
    simp only
    have hrem_nonneg : 0 ≤ us.emod 86400000000 := Int.emod_nonneg us (by norm_num)
    have hrem : us.emod 86400000000 = ((us.emod 86400000000).toNat : Int) :=
      (Int.toNat_of_nonneg hrem_nonneg).symm
    have hsplit : (us.emod 86400000000).toNat =
        1000000 * ((us.emod 86400000000).toNat / 1000000) +
          (us.emod 86400000000).toNat % 1000000 :=
      (Nat.div_add_mod _ 1000000).symm
    have hed : 86400000000 * us.ediv 86400000000 + us.emod 86400000000 = us :=
      Int.ediv_add_emod us 86400000000
    push_cast
    push_cast at hrem
    omega

/-- The core invariant of `PSDuration.__new__`: on success the `nanoseconds`
attribute is in 0..999 and the total nanoseconds equal the keyword plus the
base's total. -/
theorem PSDuration_new_total (base : Timedelta) (n : Int) (d : PSDuration)
    (h : PSDuration_new base n = .ok d) :
    0 ≤ d.nanoseconds ∧ d.nanoseconds ≤ 999 ∧
      timedelta_total_nanoseconds d = n + timedelta_total_nanoseconds_td base := by
  simp only [PSDuration_new] at h
  generalize hT : timedelta_total_nanoseconds_td base = T at h ⊢
  split at h
  · exact absurd h (by simp)
  · rename_i td htd
    injection h with h1
    subst h1
    have htot := timedelta_from_us_total _ _ htd
    unfold timedelta_total_nanoseconds_td at htot
    have hmod_nonneg : 0 ≤ (n + T).emod 1000 := Int.emod_nonneg _ (by norm_num)
    have hmod_lt : (n + T).emod 1000 < 1000 := Int.emod_lt_of_pos _ (by norm_num)
    have hed : 1000 * (n + T).ediv 1000 + (n + T).emod 1000 = n + T :=
      Int.ediv_add_emod _ 1000
    unfold timedelta_total_nanoseconds
    dsimp only
    exact ⟨hmod_nonneg, by omega, by omega⟩

/-- C9 counterexample: `PSDuration(nanoseconds=n)` is not defined for every
integer n — at 10^9 days' worth of nanoseconds the underlying
`datetime.timedelta` overflows (its day count is capped at ±999999999), so no
duration with that total exists. -/
theorem c9_counterexample :
    PSDuration_ofNanos (86400000000000 * 1000000000) = .error .overflowError := by
  rfl

/-- C9 (amended): every successfully constructed `PSDuration` has its
`nanoseconds` attribute in 0..999 and preserves the total nanosecond value;
`PSDuration(nanoseconds=n)` has total n whenever it succeeds, and succeeds
whenever the normalized day count fits ±999999999 (OverflowError otherwise);
addition, subtraction and negation act as the corresponding arithmetic on
total nanoseconds whenever their result is constructible; two durations
compare equal exactly when their totals are equal. -/
theorem c9_psduration_normalized (base : Timedelta) (n : Int) (a b : PSDuration) :
    (∀ d, PSDuration_new base n = .ok d →
      0 ≤ d.nanoseconds ∧ d.nanoseconds ≤ 999 ∧
        timedelta_total_nanoseconds d = n + timedelta_total_nanoseconds_td base) ∧
    (∀ d, PSDuration_ofNanos n = .ok d → timedelta_total_nanoseconds d = n) ∧
    (¬((n.ediv 1000).ediv 86400000000 < -999999999 ∨
        999999999 < (n.ediv 1000).ediv 86400000000) →
      ∃ d, PSDuration_ofNanos n = .ok d) ∧
    (∀ c, PSDuration_add a b = .ok c →
      timedelta_total_nanoseconds c =
        timedelta_total_nanoseconds a + timedelta_total_nanoseconds b) ∧
    (∀ c, PSDuration_sub a b = .ok c →
      timedelta_total_nanoseconds c =
        timedelta_total_nanoseconds a - timedelta_total_nanoseconds b) ∧
    (∀ c, PSDuration_neg a = .ok c →
      timedelta_total_nanoseconds c = -(timedelta_total_nanoseconds a)) ∧
    (PSDuration_eq a b = true ↔
      timedelta_total_nanoseconds a = timedelta_total_nanoseconds b) := by
  have hofNanos : ∀ m : Int, ∀ d, PSDuration_ofNanos m = .ok d →
      timedelta_total_nanoseconds d = m := by
    intro m d hd
    have := PSDuration_new_total ⟨0, 0, 0⟩ m d hd
    have hz : timedelta_total_nanoseconds_td ⟨0, 0, 0⟩ = 0 := rfl
    rw [hz] at this
    omega
  refine ⟨PSDuration_new_total base n, hofNanos n, ?_, ?_, ?_, ?_, ?_⟩
  · intro hrange
    unfold PSDuration_ofNanos PSDuration_new timedelta_from_us
    have hz : timedelta_total_nanoseconds_td ⟨0, 0, 0⟩ = 0 := rfl
    rw [hz]
    simp only [Int.add_zero]
    rw [if_neg hrange]
    exact ⟨_, rfl⟩
  · exact fun c => hofNanos _ c
  · exact fun c => hofNanos _ c
  · exact fun c => hofNanos _ c
  · unfold PSDuration_eq
    exact decide_eq_true_iff

/-- C9 witness: the amended theorem instantiated at `PSDuration(nanoseconds=5)`. -/
theorem c9_psduration_witness :
    PSDuration_ofNanos 5 = .ok ⟨⟨0, 0, 0⟩, 5⟩ ∧
    timedelta_total_nanoseconds ⟨⟨0, 0, 0⟩, 5⟩ = 5 := by
  have h : PSDuration_ofNanos 5 = .ok ⟨⟨0, 0, 0⟩, 5⟩ := by rfl
  exact ⟨h,
    (c9_psduration_normalized ⟨0, 0, 0⟩ 5 ⟨⟨0, 0, 0⟩, 5⟩ ⟨⟨0, 0, 0⟩, 5⟩).2.1
      ⟨⟨0, 0, 0⟩, 5⟩ h⟩

